import Mathlib

set_option maxHeartbeats 1000000

/-!
Shallow embedding of the reactive lock-enforcement engine of `src/bot.js`.

The engine is event-driven: the `listenMqtt` handler receives one raw
occurrence at a time, dispatches on its `type` / `logMessageType`, and either
issues corrective external calls (reverts, anti-out re-adds) or, for text
messages from the privileged identity, interprets a command that mutates the
persisted `locks` store.

Modelling conventions:
- Every raw external-client call attempt, every `sleep`, and every
  `saveLocks()` invocation is recorded, in program order, in a `List Op`
  trace; `Promise.all` over a batch is linearized as the concatenation of the
  per-member traces, with the batch boundary kept by the trailing
  `Op.sleep 350` that the source awaits after each batch.
- JS objects used as string-keyed maps become association lists
  (`alookup` / `aset` / `aerase`); JS string truthiness (`""` and
  `undefined`/absent are falsy) becomes `truthyS` on `Option String`.
- The external world is an explicit `Env`: the thread-info fetch result
  (`none` models a thrown fetch), per-attempt nickname-call failure,
  add-member failure, and the engine's own user id.
- Message texts are carried without the emoji glyphs of the source; their
  content is irrelevant to the properties proved here.
-/

namespace GClock

/-- One observable action of the engine: a raw external-client call attempt
(one entry per attempt, so a retried call appears once per attempt), a sleep,
or a persistence save of the locks store. Argument order follows the js
client calls (`api.changeNickname(nick, threadID, uid)`, etc.). -/
inductive Op : Type
  | setTitle (name threadID : String)
  | changeNickname (nick threadID uid : String)
  | changeThreadEmoji (emoji threadID : String)
  | addUserToGroup (uid threadID : String)
  | sendMessage (msg : String) (threadID : Option String)
  | getThreadInfo (threadID : String)
  | sleep (ms : Nat)
  | saveLocks
  deriving Repr, DecidableEq

/-- The optional payload fields of `event.logMessageData` read by the
handler; `none` models an absent field. -/
structure LogData where
  name : Option String
  participant_id : Option String
  participantID : Option String
  nickname : Option String
  thread_icon : Option String
  emoji : Option String
  leftParticipantFbId : Option String
  leftParticipantId : Option String
  user_id : Option String
  participantId : Option String
  deriving Repr, DecidableEq

/-- The empty payload (every field absent). -/
def LogData.empty : LogData :=
  ⟨none, none, none, none, none, none, none, none, none, none⟩

/-- A raw occurrence as normalized at the top of the `listenMqtt` handler:
`threadID`, `senderID` and `body` are already string-coerced with `""`
defaults, as in the source. -/
structure FbEvent where
  type : String
  threadID : String
  senderID : String
  body : String
  logMessageType : String
  logMessageData : LogData
  deriving Repr, DecidableEq

/-- The persisted `locks` object: string-keyed maps become association
lists. `target` is `none` until the `target` command first creates the
sub-object (`locks.target = locks.target || {}`). -/
structure Locks where
  groupNames : List (String × String)
  nicknames : List (String × List (String × String))
  emojis : List (String × String)
  antiOut : List (String × Bool)
  target : Option (List (String × String))
  deriving Repr, DecidableEq

/-- The initial `locks` literal of the source (all maps empty, no `target`
key). -/
def defaultLocks : Locks := ⟨[], [], [], [], none⟩

/-- Result of `api.getThreadInfo`: the two member-id shapes the source
probes (`participantIDs`, `userInfo.map(u => u.id)`) and the thread name. -/
structure ThreadInfo where
  participantIDs : Option (List String)
  userInfoIDs : Option (List String)
  threadName : Option String
  deriving Repr, DecidableEq

/-- The external world as the handler observes it: `threadInfo t = none`
models `api.getThreadInfo(t)` throwing; `nickFail uid i` tells whether the
`i`-th `changeNickname` attempt for `uid` reports an error; `addFail`
likewise for `addUserToGroup`; `selfID` is `api.getCurrentUserID()`. -/
structure Env where
  threadInfo : String → Option ThreadInfo
  nickFail : String → Nat → Bool
  addFail : String → String → Bool
  selfID : String

/-- Association-list lookup (JS property read on a string-keyed object). -/
def alookup {α : Type} : List (String × α) → String → Option α
  | [], _ => none
  | p :: rest, k => if p.1 = k then some p.2 else alookup rest k

/-- Remove a key (JS `delete obj[k]`). -/
def aerase {α : Type} : List (String × α) → String → List (String × α)
  | [], _ => []
  | p :: rest, k => if p.1 = k then aerase rest k else p :: aerase rest k

/-- Set a key (JS `obj[k] = v`). -/
def aset {α : Type} (m : List (String × α)) (k : String) (v : α) :
    List (String × α) :=
  (k, v) :: aerase m k

/-- JS truthiness of an optional string: absent and `""` are falsy. -/
def truthyS (o : Option String) : Prop := o.getD "" ≠ ""

instance (o : Option String) : Decidable (truthyS o) := by
  unfold truthyS; infer_instance

/-- JS `a || b` on optional strings: `a` if truthy, else `b`. -/
def jsOrS (a b : Option String) : Option String :=
  if truthyS a then a else b

/-- JS `a || b || ... || null`: the first truthy element, else `none`. -/
def jsChain : List (Option String) → Option String
  | [] => none
  | o :: rest => if truthyS o then o else jsChain rest

/-- Substring test (JS `String.prototype.includes`), via `splitOn`. -/
def strContains (s pat : String) : Bool := (s.splitOn pat).length != 1

/-- Condition of the member-removed branch: the explicit `logMessageType`
list of the source, or any tag containing `"remove"`. -/
def removeMatch (lt : String) : Prop :=
  lt = "log:unsubscribe" ∨ lt = "log:remove" ∨ lt = "log:remove-participant" ∨
  lt = "log:user-left" ∨ strContains lt "remove" = true

instance (lt : String) : Decidable (removeMatch lt) := by
  unfold removeMatch; infer_instance

/-- A `type = "event"` occurrence is consumed by one of the four event
branches (each of which `return`s); any other tag falls through to the
command stage. -/
def eventMatch (lt : String) : Prop :=
  lt = "log:thread-name" ∨
  (lt = "log:user-nickname" ∨ lt = "log:user-nick") ∨
  (lt = "log:thread-icon" ∨ lt = "log:thread-icon-change") ∨
  removeMatch lt

instance (lt : String) : Decidable (eventMatch lt) := by
  unfold eventMatch; infer_instance

/-- The retry loop of `retryChangeNick`, unrolled on the remaining attempt
budget; `i` is the current attempt index. Each iteration records one raw
`changeNickname` attempt; a failed attempt is followed by
`sleep (250 + i * 150)`; the first successful attempt returns `true`
immediately; an exhausted budget falls out of the loop and returns `false`
(the failure is only logged — nothing is raised). -/
def retryAux (threadID uid nick : String) (fails : Nat → Bool) :
    Nat → Nat → List Op × Bool
  | _, 0 => ([], false)
  | i, rem + 1 =>
    if fails i then
      let rest := retryAux threadID uid nick fails (i + 1) rem
      (Op.changeNickname nick threadID uid :: Op.sleep (250 + i * 150) ::
        rest.1, rest.2)
    else
      ([Op.changeNickname nick threadID uid], true)

/-- `retryChangeNick(api, threadID, uid, nick, retries)` of the source. -/
def retryChangeNick (threadID uid nick : String) (fails : Nat → Bool)
    (retries : Nat) : List Op × Bool :=
  retryAux threadID uid nick fails 0 retries

/-- Member-id extraction of the source:
`info?.participantIDs || info?.userInfo?.map(u => u.id) || []` (a present
`participantIDs` array is truthy even when empty). -/
def membersOf (info : ThreadInfo) : List String :=
  match info.participantIDs with
  | some l => l
  | none => info.userInfoIDs.getD []

/-- The batched enforcement loop (`for i += batchSize`, batch size 15):
each batch's `Promise.all` is linearized as the concatenation of the
per-member retry traces, and the source awaits `sleep(350)` after every
batch. The fuel argument starts at the member-list length. -/
def enforceAux (env : Env) (threadID nick : String) :
    Nat → List String → List Op
  | 0, _ => []
  | _, [] => []
  | fuel + 1, uids =>
    ((uids.take 15).map
        (fun uid =>
          (retryChangeNick threadID uid nick (env.nickFail uid) 3).1)).flatten
      ++ [Op.sleep 350]
      ++ enforceAux env threadID nick fuel (uids.drop 15)

/-- `enforceNickLockForThread(api, threadID, nick)` of the source: fetch the
members (a throwing fetch is caught, logged, and yields `false`), then run
the batched retry loop. -/
def enforceNickLockForThread (env : Env) (threadID nick : String) :
    List Op × Bool :=
  match env.threadInfo threadID with
  | none => ([Op.getThreadInfo threadID], false)
  | some info =>
    (Op.getThreadInfo threadID ::
      enforceAux env threadID nick (membersOf info).length (membersOf info),
     true)

/-- `revertSingleNick(api, threadID, uid)` of the source: looks the lock up
again and returns silently when the stored value is falsy (absent or
`""`); otherwise one retried corrective call. -/
def revertSingleNick (env : Env) (st : Locks) (threadID uid : String) :
    List Op :=
  match alookup st.nicknames threadID with
  | none => []
  | some m =>
    match alookup m uid with
    | none => []
    | some locked =>
      if locked = "" then []
      else (retryChangeNick threadID uid locked (env.nickFail uid) 3).1

/-- The four `type === "event"` branches of the handler, in source order.
None of them reads `senderID` or `body`, and none mutates the locks store;
they only produce external calls. -/
def handleEventBranch (env : Env) (st : Locks) (threadID lt : String)
    (ld : LogData) : List Op :=
  if lt = "log:thread-name" then
    let newName := ld.name.getD ""
    let lockedName := alookup st.groupNames threadID
    if truthyS lockedName ∧ newName ≠ lockedName.getD "" then
      [Op.setTitle (lockedName.getD "") threadID]
    else []
  else if lt = "log:user-nickname" ∨ lt = "log:user-nick" then
    let newNick := ld.nickname.getD ""
    match alookup st.nicknames threadID with
    | none => []
    | some lockedForThis =>
      match jsOrS ld.participant_id ld.participantID with
      | none => []
      | some changedUID =>
        let lv := alookup lockedForThis changedUID
        if truthyS lv ∧ lv.getD "" ≠ newNick then
          revertSingleNick env st threadID changedUID ++
            [Op.sendMessage ("Nick reverted for " ++ changedUID)
              (some threadID)]
        else []
  else if lt = "log:thread-icon" ∨ lt = "log:thread-icon-change" then
    let currentEmoji := (jsChain [ld.thread_icon, ld.emoji]).getD ""
    let lockedEmoji := alookup st.emojis threadID
    if truthyS lockedEmoji ∧ lockedEmoji.getD "" ≠ currentEmoji then
      [Op.changeThreadEmoji (lockedEmoji.getD "") threadID]
    else []
  else if removeMatch lt then
    match jsChain [ld.leftParticipantFbId, ld.leftParticipantId,
        ld.user_id, ld.participantId] with
    | none => []
    | some leftUID =>
      if (alookup st.antiOut threadID).getD false = true ∧
          leftUID ≠ env.selfID then
        if env.addFail leftUID threadID then
          [Op.addUserToGroup leftUID threadID,
           Op.sendMessage ("AntiOut failed to re-add " ++ leftUID)
             (some threadID)]
        else
          [Op.addUserToGroup leftUID threadID,
           Op.sendMessage ("Anti-Out: Added back " ++ leftUID)
             (some threadID)]
      else []
  else []

/-- Character-level worker for the whitespace tokenizer: `acc` holds the
reversed current token. -/
def wordsAux : List Char → List Char → List String
  | [], acc => if acc = [] then [] else [String.mk acc.reverse]
  | c :: cs, acc =>
    if c.isWhitespace then
      if acc = [] then wordsAux cs []
      else String.mk acc.reverse :: wordsAux cs []
    else wordsAux cs (c :: acc)

/-- `body.trim().split(/\s+/)`: the maximal non-whitespace runs of the body,
in order. (For an all-whitespace body the js expression yields `[""]`, whose
first element selects no verb, observably identical to the empty token list
produced here.) -/
def tokens (s : String) : List String := wordsAux s.data []

/-- JS `String.prototype.toLowerCase` (ASCII case fold). -/
def lowerStr (s : String) : String := String.mk (s.data.map Char.toLower)

/-- `parts[0].replace(/^\//, "")`: strip one leading slash. -/
def stripSlash (s : String) : String :=
  match s.data with
  | '/' :: rest => String.mk rest
  | _ => s

/-- Space-join of a token list. -/
def joinSpace : List String → String
  | [] => ""
  | [x] => x
  | x :: xs => x ++ " " ++ joinSpace xs

/-- `args.slice(k).join(" ").trim()` on already-tokenized arguments (the
trailing `trim` is a no-op because tokens are whitespace-free and joined by
single spaces). -/
def joinArgs (l : List String) : String := joinSpace l

/-- Set every uid of `uids` to `nick` in a nickname map
(`for (const uid of members) locks.nicknames[threadID][uid] = nickname`). -/
def setAllNicks (m : List (String × String)) (uids : List String)
    (nick : String) : List (String × String) :=
  uids.foldl (fun acc uid => aset acc uid nick) m

/-- The `groupname` command branch. -/
def cmdGroupname (st : Locks) (threadID : String) (args : List String) :
    List Op × Locks :=
  let sub := lowerStr (args.headD "")
  if sub = "on" then
    let name := joinArgs args.tail
    if name = "" then
      ([Op.sendMessage "Usage: /groupname on <Name>" (some threadID)], st)
    else
      ([Op.saveLocks, Op.setTitle name threadID,
        Op.sendMessage ("Group name locked -> " ++ name) (some threadID)],
       { st with groupNames := aset st.groupNames threadID name })
  else if sub = "off" then
    ([Op.saveLocks, Op.sendMessage "Group name unlocked" (some threadID)],
     { st with groupNames := aerase st.groupNames threadID })
  else
    ([Op.sendMessage "Usage: /groupname on <Name> | /groupname off"
        (some threadID)], st)

/-- Body of the `nicknames on` sub-command, after its usage check: the
source first lazily creates the per-thread record
(`if (!locks.nicknames[threadID]) locks.nicknames[threadID] = {}`), runs the
batched enforcement, and only then — inside a separate `try` whose member
fetch may throw — persists the per-member entries and calls `saveLocks`. -/
def cmdNicknamesOn (env : Env) (st : Locks) (threadID nickname : String) :
    List Op × Locks :=
  let st1 :=
    if (alookup st.nicknames threadID).isSome then st
    else { st with nicknames := aset st.nicknames threadID [] }
  let enf := enforceNickLockForThread env threadID nickname
  match env.threadInfo threadID with
  | some info =>
    let ms := membersOf info
    let cur := (alookup st1.nicknames threadID).getD []
    (enf.1 ++ [Op.getThreadInfo threadID, Op.saveLocks,
       Op.sendMessage ("All nicknames locked -> " ++ nickname)
         (some threadID)],
     { st1 with nicknames :=
                  aset st1.nicknames threadID
                    (setAllNicks cur ms nickname) })
  | none =>
    (enf.1 ++ [Op.getThreadInfo threadID,
       Op.sendMessage ("All nicknames locked -> " ++ nickname)
         (some threadID)], st1)

/-- The `nicknames` command branch. -/
def cmdNicknames (env : Env) (st : Locks) (threadID : String)
    (args : List String) : List Op × Locks :=
  let sub := lowerStr (args.headD "")
  if sub = "on" then
    let nickname := joinArgs args.tail
    if nickname = "" then
      ([Op.sendMessage "Usage: /nicknames on <Nick>" (some threadID)], st)
    else cmdNicknamesOn env st threadID nickname
  else if sub = "off" then
    match alookup st.nicknames threadID with
    | some existed =>
      let uids := existed.map (fun p => p.1)
      (enforceAux env threadID "" uids.length uids ++
         [Op.saveLocks, Op.sendMessage "Nicknames unlocked" (some threadID)],
       { st with nicknames := aerase st.nicknames threadID })
    | none => ([Op.sendMessage "Nicknames unlocked" (some threadID)], st)
  else
    ([Op.sendMessage "Usage: /nicknames on <Nick> | /nicknames off"
        (some threadID)], st)

/-- The `nickname` (per-uid) command branch. -/
def cmdNickname (env : Env) (st : Locks) (threadID : String)
    (args : List String) : List Op × Locks :=
  let sub := lowerStr (args.headD "")
  if sub = "on" then
    let targetUid := args.getD 1 ""
    let nickname := joinArgs (args.drop 2)
    if targetUid = "" ∨ nickname = "" then
      ([Op.sendMessage "Usage: /nickname on <UID> <Nick>" none], st)
    else
      let cur := (alookup st.nicknames threadID).getD []
      ((retryChangeNick threadID targetUid nickname
          (env.nickFail targetUid) 3).1 ++
         [Op.saveLocks,
          Op.sendMessage ("UID " ++ targetUid ++ " nickname locked")
            (some threadID)],
       { st with nicknames :=
                   aset st.nicknames threadID (aset cur targetUid nickname) })
  else if sub = "off" then
    let targetUid := args.getD 1 ""
    if targetUid = "" then
      ([Op.sendMessage "Usage: /nickname off <UID>" none], st)
    else
      match alookup st.nicknames threadID with
      | some m =>
        if truthyS (alookup m targetUid) then
          ((retryChangeNick threadID targetUid ""
              (env.nickFail targetUid) 3).1 ++
             [Op.saveLocks,
              Op.sendMessage ("UID " ++ targetUid ++ " nickname unlocked")
                (some threadID)],
           { st with nicknames :=
                       aset st.nicknames threadID (aerase m targetUid) })
        else
          ([Op.sendMessage "No nickname lock found for this UID"
              (some threadID)], st)
      | none =>
        ([Op.sendMessage "No nickname lock found for this UID"
            (some threadID)], st)
  else
    ([Op.sendMessage "Usage: /nickname on <UID> <Nick> | /nickname off <UID>"
        (some threadID)], st)

/-- The `emoji` command branch. -/
def cmdEmoji (st : Locks) (threadID : String) (args : List String) :
    List Op × Locks :=
  let emoji := args.getD 0 ""
  if emoji = "" then
    ([Op.sendMessage "Usage: /emoji <Emoji>" none], st)
  else
    ([Op.saveLocks, Op.changeThreadEmoji emoji threadID,
      Op.sendMessage ("Group emoji locked -> " ++ emoji) (some threadID)],
     { st with emojis := aset st.emojis threadID emoji })

/-- The `antiout` command branch. -/
def cmdAntiout (st : Locks) (threadID : String) (args : List String) :
    List Op × Locks :=
  let sub := lowerStr (args.headD "")
  if sub = "on" then
    ([Op.saveLocks, Op.sendMessage "Antiout enabled" (some threadID)],
     { st with antiOut := aset st.antiOut threadID true })
  else if sub = "off" then
    ([Op.saveLocks, Op.sendMessage "Antiout disabled" (some threadID)],
     { st with antiOut := aerase st.antiOut threadID })
  else
    ([Op.sendMessage "Usage: /antiout on | /antiout off" (some threadID)], st)

/-- The `adduser` command branch (one-shot add, no lock). -/
def cmdAdduser (env : Env) (st : Locks) (threadID : String)
    (args : List String) : List Op × Locks :=
  let toAdd := args.getD 0 ""
  if toAdd = "" then
    ([Op.sendMessage "Usage: /adduser <UID>" (some threadID)], st)
  else if env.addFail toAdd threadID then
    ([Op.addUserToGroup toAdd threadID, Op.sendMessage "Not In Add" none], st)
  else
    ([Op.addUserToGroup toAdd threadID,
      Op.sendMessage ("UID " ++ toAdd ++ " added to this group")
        (some threadID)], st)

/-- The `uid` command branch (read-only reply). -/
def cmdUid (st : Locks) (threadID : String) : List Op × Locks :=
  ([Op.sendMessage ("Group ID -> " ++ threadID) (some threadID)], st)

/-- The active-lock report of the `groupinfo` command: one entry per lock
kind whose stored value is truthy for this thread (a present nicknames
record counts even when empty — JS objects are truthy). -/
def activeLocks (st : Locks) (threadID : String) : List String :=
  (if truthyS (alookup st.groupNames threadID) then ["Name Lock"] else [])
  ++ (if (alookup st.nicknames threadID).isSome then ["Nickname Lock"]
      else [])
  ++ (if truthyS (alookup st.emojis threadID) then ["Emoji Lock"] else [])
  ++ (if (alookup st.antiOut threadID).getD false then ["Anti-Out"] else [])

/-- The `Active:` part of the `groupinfo` reply
(`active.length ? active.join(", ") : "— None —"`). -/
def activeStr (st : Locks) (threadID : String) : String :=
  let active := activeLocks st threadID
  if active.length = 0 then "- None -" else String.intercalate ", " active

/-- JS `a?.length || b?.length || 0` (a zero length is falsy and falls
through). -/
def jsNum : Option Nat → Option Nat → Nat
  | some n, b => if n = 0 then b.getD 0 else n
  | none, b => b.getD 0

/-- The `groupinfo` reply text. -/
def groupinfoMsg (st : Locks) (threadID : String) (info : ThreadInfo) :
    String :=
  "GROUP INFORMATION / Group Name: " ++ info.threadName.getD "-" ++
    " / Members: " ++
    toString (jsNum ((info.participantIDs).map List.length)
      ((info.userInfoIDs).map List.length)) ++
    " / Active: " ++ activeStr st threadID

/-- The `groupinfo` command branch (a throwing fetch is caught and answered
with a failure reply that omits the thread id, as in the source). -/
def cmdGroupinfo (env : Env) (st : Locks) (threadID : String) :
    List Op × Locks :=
  match env.threadInfo threadID with
  | none =>
    ([Op.getThreadInfo threadID,
      Op.sendMessage "Failed to fetch group info" none], st)
  | some info =>
    ([Op.getThreadInfo threadID,
      Op.sendMessage (groupinfoMsg st threadID info) (some threadID)], st)

/-- The `target` command branch (`locks.target = locks.target || {}`). -/
def cmdTarget (st : Locks) (threadID : String) (args : List String) :
    List Op × Locks :=
  let sub := lowerStr (args.headD "")
  if sub = "on" then
    let t := args.getD 1 ""
    if t = "" then ([Op.sendMessage "Usage: /target on <UID>" none], st)
    else
      ([Op.saveLocks, Op.sendMessage ("Target set -> " ++ t) (some threadID)],
       { st with target := some (aset (st.target.getD []) threadID t) })
  else if sub = "off" then
    match st.target with
    | some m =>
      ([Op.saveLocks, Op.sendMessage "Target cleared" (some threadID)],
       { st with target := some (aerase m threadID) })
    | none => ([Op.sendMessage "Target cleared" (some threadID)], st)
  else
    ([Op.sendMessage "Usage: /target on <UID> | /target off" (some threadID)],
     st)

/-- The `help` command branch. -/
def cmdHelp (st : Locks) (threadID : String) : List Op × Locks :=
  ([Op.sendMessage "Commands: groupname, nicknames, nickname, emoji, antiout, adduser, uid, groupinfo, target, help" (some threadID)], st)

/-- The command stage: tokenize, strip one leading slash, case-fold, then
the if-chain over the frozen verb set; an unrecognized verb does nothing. -/
def handleCommand (env : Env) (st : Locks) (threadID : String)
    (body : String) : List Op × Locks :=
  let parts := tokens body
  let rawCmd := lowerStr (stripSlash (parts.headD ""))
  let args := parts.tail
  if rawCmd = "groupname" then cmdGroupname st threadID args
  else if rawCmd = "nicknames" then cmdNicknames env st threadID args
  else if rawCmd = "nickname" then cmdNickname env st threadID args
  else if rawCmd = "emoji" then cmdEmoji st threadID args
  else if rawCmd = "antiout" then cmdAntiout st threadID args
  else if rawCmd = "adduser" then cmdAdduser env st threadID args
  else if rawCmd = "uid" then cmdUid st threadID
  else if rawCmd = "groupinfo" then cmdGroupinfo env st threadID
  else if rawCmd = "target" then cmdTarget st threadID args
  else if rawCmd = "help" then cmdHelp st threadID
  else ([], st)

/-- One pass of the `listenMqtt` handler over a single occurrence: the four
event branches run first (each `return`s when its tag matches, with no
authority check); otherwise an empty body is skipped, then the authority
gate drops any sender other than `BOSS_UID` with no reply, and finally the
command stage runs. Returns the trace of attempted operations and the
resulting locks store. -/
def handleEvent (env : Env) (bossUID : String) (st : Locks) (ev : FbEvent) :
    List Op × Locks :=
  if ev.type = "event" ∧ eventMatch ev.logMessageType then
    (handleEventBranch env st ev.threadID ev.logMessageType
       ev.logMessageData, st)
  else if ev.body = "" then ([], st)
  else if ev.senderID ≠ bossUID then ([], st)
  else handleCommand env st ev.threadID ev.body

/-- Startup load of the locks snapshot: `exists_` is
`fs.existsSync(LOCKS_PATH)` and `parsed = none` models `JSON.parse`
throwing on corrupt content; in both fallback cases the default literal
survives and only a warning is logged. -/
def loadLocks (exists_ : Bool) (parsed : Option Locks) : Locks :=
  if exists_ then
    match parsed with
    | some l => l
    | none => defaultLocks
  else defaultLocks

/-- The periodic safety-net save interval, `setInterval(saveLocks, 60*1000)`. -/
def saveIntervalMs : Nat := 60 * 1000

/-- Recognizer for raw nickname-call attempts in a trace. -/
def isNickOp : Op → Bool
  | Op.changeNickname _ _ _ => true
  | _ => false

/-- Recognizer for the fixed inter-batch pause in a trace. -/
def isSleep350 : Op → Bool
  | Op.sleep ms => ms = 350
  | _ => false

/-- Recognizer for add-member attempts in a trace. -/
def isAddOp : Op → Bool
  | Op.addUserToGroup _ _ => true
  | _ => false

/-- Recognizer for title-change attempts in a trace. -/
def isSetTitleOp : Op → Bool
  | Op.setTitle _ _ => true
  | _ => false

/-- Recognizer for icon-change attempts in a trace. -/
def isEmojiOp : Op → Bool
  | Op.changeThreadEmoji _ _ => true
  | _ => false

/-- The batch partition of the bulk-enforcement loop (successive
`slice(i, i + 15)` windows), with fuel starting at the list length. -/
def chunksAux {α : Type} (n : Nat) : Nat → List α → List (List α)
  | 0, _ => []
  | _, [] => []
  | fuel + 1, xs => xs.take n :: chunksAux n fuel (xs.drop n)

/-- The batch partition with its canonical fuel. -/
def chunksList {α : Type} (n : Nat) (xs : List α) : List (List α) :=
  chunksAux n xs.length xs

/-- Concrete environment whose thread-info fetch always throws and whose
external calls never fail (used to instantiate universally quantified
theorems). -/
def envNone : Env := ⟨fun _ => none, fun _ _ => false, fun _ _ => false, "self"⟩

/-- Concrete environment in which every external call fails: the fetch
throws, every nickname attempt errors, every add-member call throws. -/
def envAllFail : Env := ⟨fun _ => none, fun _ _ => true, fun _ _ => true, "self"⟩

/-- Concrete thread info with three members. -/
def infoThree : ThreadInfo := ⟨some ["u1", "u2", "u3"], none, some "G"⟩

/-- Concrete thread info with seventeen members (two enforcement batches). -/
def infoSeventeen : ThreadInfo :=
  ⟨some ["m01", "m02", "m03", "m04", "m05", "m06", "m07", "m08", "m09",
    "m10", "m11", "m12", "m13", "m14", "m15", "m16", "m17"], none, some "G"⟩

/-- Concrete environment whose fetch always returns `infoThree` and whose
calls never fail. -/
def envThree : Env :=
  ⟨fun _ => some infoThree, fun _ _ => false, fun _ _ => false, "self"⟩

/-- Concrete environment whose fetch always returns `infoSeventeen` and
whose calls never fail. -/
def envSeventeen : Env :=
  ⟨fun _ => some infoSeventeen, fun _ _ => false, fun _ _ => false, "self"⟩

/-- A thread-rename occurrence reporting new name `newName`. -/
def renameEv (tid newName sender body : String) : FbEvent :=
  ⟨"event", tid, sender, body, "log:thread-name",
    ⟨some newName, none, none, none, none, none, none, none, none, none⟩⟩

/-- A nickname-change occurrence for member `uid` reporting new nick `M`. -/
def nickChangeEv (tid uid M sender body : String) : FbEvent :=
  ⟨"event", tid, sender, body, "log:user-nickname",
    ⟨none, some uid, none, some M, none, none, none, none, none, none⟩⟩

/-- An icon-change occurrence reporting new icon `F`. -/
def iconEv (tid F sender body : String) : FbEvent :=
  ⟨"event", tid, sender, body, "log:thread-icon",
    ⟨none, none, none, none, some F, none, none, none, none, none⟩⟩

/-- A member-removed occurrence whose leaving member is `uid`. -/
def removeEv (tid uid sender body : String) : FbEvent :=
  ⟨"event", tid, sender, body, "log:unsubscribe",
    ⟨none, none, none, none, none, none, some uid, none, none, none⟩⟩

/-- A member-removed occurrence carrying no extractable leaving member id. -/
def removeEvNoPayload (tid sender body : String) : FbEvent :=
  ⟨"event", tid, sender, body, "log:unsubscribe", LogData.empty⟩

/-! ### Association-list lemmas -/

theorem alookup_aerase {α : Type} (m : List (String × α)) (k u : String) :
    alookup (aerase m k) u = if u = k then none else alookup m u := by
  induction m with
  | nil => simp [aerase, alookup]
  | cons p rest ih =>
    by_cases hp : p.1 = k
    · rw [show aerase (p :: rest) k = aerase rest k by simp [aerase, hp], ih]
      by_cases huk : u = k
      · simp [huk]
      · have hpu : p.1 ≠ u := fun h => huk (by rw [← h, hp])
        simp [huk, alookup, hpu]
    · rw [show aerase (p :: rest) k = p :: aerase rest k by simp [aerase, hp]]
      by_cases hpu : p.1 = u
      · have huk : u ≠ k := fun h => hp (by rw [hpu, h])
        simp [alookup, hpu, huk]
      · simp [alookup, hpu, ih]

theorem alookup_aset {α : Type} (m : List (String × α)) (k : String) (v : α)
    (u : String) :
    alookup (aset m k v) u = if u = k then some v else alookup m u := by
  by_cases huk : u = k
  · simp [aset, alookup, huk]
  · have hku : ¬ k = u := fun h => huk h.symm
    simp [aset, alookup, hku, alookup_aerase, huk]

theorem alookup_setAllNicks (m : List (String × String)) (uids : List String)
    (nick u : String) :
    alookup (setAllNicks m uids nick) u =
      if u ∈ uids then some nick else alookup m u := by
  induction uids generalizing m with
  | nil => simp [setAllNicks]
  | cons x xs ih =>
    show alookup (setAllNicks (aset m x nick) xs nick) u = _
    rw [ih, alookup_aset]
    by_cases hx : u = x
    · simp [hx]
    · by_cases hxs : u ∈ xs <;> simp [hx, hxs]

/-! ### Retry-loop lemmas -/

theorem retryChangeNick_allFail (threadID uid nick : String)
    (fails : Nat → Bool) (h : ∀ i, fails i = true) :
    retryChangeNick threadID uid nick fails 3 =
      ([Op.changeNickname nick threadID uid, Op.sleep 250,
        Op.changeNickname nick threadID uid, Op.sleep 400,
        Op.changeNickname nick threadID uid, Op.sleep 550], false) := by
  show retryAux threadID uid nick fails 0 3 = _
  simp [retryAux, h 0, h 1, h 2]

theorem retryChangeNick_firstSuccess (threadID uid nick : String)
    (fails : Nat → Bool) (h : fails 0 = false) :
    retryChangeNick threadID uid nick fails 3 =
      ([Op.changeNickname nick threadID uid], true) := by
  show retryAux threadID uid nick fails 0 3 = _
  simp [retryAux, h]

/-! ### Claim theorems -/

/-- C1: a text message (an occurrence that is not a platform `event`) from
any sender other than the configured privileged identity produces an empty
operation trace — no external client call, no save — and leaves the locks
store unchanged, whatever the message text is. -/
theorem C1_nonprivileged_message_is_inert (env : Env) (bossUID : String)
    (st : Locks) (ev : FbEvent) (ht : ev.type ≠ "event")
    (hs : ev.senderID ≠ bossUID) :
    handleEvent env bossUID st ev = ([], st) := by
  unfold handleEvent
  rw [if_neg (fun h => ht h.1)]
  by_cases hb : ev.body = ""
  · rw [if_pos hb]
  · rw [if_neg hb, if_pos hs]

/-- Witness for C1: a non-privileged sender issuing an exact command verb. -/
theorem C1_witness :
    ("message" : String) ≠ "event" ∧ ("intruder" : String) ≠ "boss" ∧
    handleEvent envNone "boss" defaultLocks
        ⟨"message", "T", "intruder", "/groupname on X", "", LogData.empty⟩ =
      ([], defaultLocks) :=
  ⟨by decide, by decide,
    C1_nonprivileged_message_is_inert envNone "boss" defaultLocks
      ⟨"message", "T", "intruder", "/groupname on X", "", LogData.empty⟩
      (by decide) (by decide)⟩

/-- C3: a corrective nickname call whose underlying client call errors on
every attempt is attempted exactly 3 times, sleeping 250ms after the first
failed attempt, 400ms after the second and 550ms after the third, and is
then abandoned with result `false` (nothing is raised). -/
theorem C3_retry_exhaustion (threadID uid nick : String) (fails : Nat → Bool)
    (h : ∀ i, fails i = true) :
    retryChangeNick threadID uid nick fails 3 =
      ([Op.changeNickname nick threadID uid, Op.sleep 250,
        Op.changeNickname nick threadID uid, Op.sleep 400,
        Op.changeNickname nick threadID uid, Op.sleep 550], false) :=
  retryChangeNick_allFail threadID uid nick fails h

/-- Witness for C3 at a concrete always-failing call. -/
theorem C3_witness :
    retryChangeNick "T" "U" "N" (fun _ => true) 3 =
      ([Op.changeNickname "N" "T" "U", Op.sleep 250,
        Op.changeNickname "N" "T" "U", Op.sleep 400,
        Op.changeNickname "N" "T" "U", Op.sleep 550], false) :=
  C3_retry_exhaustion "T" "U" "N" (fun _ => true) (fun _ => rfl)

/-- C7: when the locks snapshot is absent, or present but unparseable, the
engine starts with the default empty store, and the `groupinfo` active-lock
report for any thread is empty (rendered as the `- None -` reply). -/
theorem C7_missing_or_corrupt_snapshot_empty (t : String) (p : Option Locks) :
    loadLocks false p = defaultLocks ∧
    loadLocks true none = defaultLocks ∧
    activeLocks (loadLocks false p) t = [] ∧
    activeLocks (loadLocks true none) t = [] ∧
    activeStr (loadLocks false p) t = "- None -" ∧
    activeStr (loadLocks true none) t = "- None -" := by
  refine ⟨rfl, rfl, ?_, ?_, ?_, ?_⟩ <;>
    simp [loadLocks, defaultLocks, activeLocks, activeStr, alookup, truthyS]

/-- C9: a nickname lock whose stored value is the empty string (reachable
only through a restored snapshot) is never enforced: a nickname-change
occurrence for that member produces no operation at all, and
`revertSingleNick` itself returns without any call. -/
theorem C9_empty_string_lock_never_enforced (env : Env)
    (bossUID sender body tid uid M : String) (st : Locks)
    (m : List (String × String)) (hu : uid ≠ "")
    (hm : alookup st.nicknames tid = some m)
    (h0 : alookup m uid = some "") :
    handleEvent env bossUID st
        ⟨"event", tid, sender, body, "log:user-nickname",
          ⟨none, some uid, none, some M, none, none, none, none, none, none⟩⟩ =
      ([], st) ∧
    revertSingleNick env st tid uid = [] := by
  constructor
  · unfold handleEvent
    rw [if_pos ⟨rfl, Or.inr (Or.inl (Or.inl rfl))⟩]
    unfold handleEventBranch
    simp [hm, h0, jsOrS, truthyS, hu]
  · unfold revertSingleNick
    rw [hm]
    simp [h0]

/-- Witness for C9: a concrete thread with a restored empty-string lock. -/
theorem C9_witness :
    handleEvent envThree "boss" ⟨[], [("T", [("u1", "")])], [], [], none⟩
        ⟨"event", "T", "x", "", "log:user-nickname",
          ⟨none, some "u1", none, some "eve", none, none, none, none, none,
            none⟩⟩ =
      ([], ⟨[], [("T", [("u1", "")])], [], [], none⟩) ∧
    revertSingleNick envThree ⟨[], [("T", [("u1", "")])], [], [], none⟩
        "T" "u1" = [] :=
  C9_empty_string_lock_never_enforced envThree "boss" "x" "" "T" "u1" "eve"
    ⟨[], [("T", [("u1", "")])], [], [], none⟩ [("u1", "")]
    (by decide) (by decide) (by decide)

/-- C10: for every occurrence consumed by one of the four event branches
(thread rename, nickname change, icon change, member removed), the trace of
corrective operations and the resulting store are independent of the
sender/actor identity: the handler reads `senderID` only at the authority
gate, which runs after these branches return. -/
theorem C10_event_branches_actor_independent (env : Env)
    (bossUID ty tid body lt s1 s2 : String) (ld : LogData) (st : Locks)
    (ht : ty = "event") (hm : eventMatch lt) :
    handleEvent env bossUID st ⟨ty, tid, s1, body, lt, ld⟩ =
      handleEvent env bossUID st ⟨ty, tid, s2, body, lt, ld⟩ := by
  subst ht
  unfold handleEvent
  rw [if_pos ⟨rfl, hm⟩, if_pos ⟨rfl, hm⟩]

/-- Witness for C10: the privileged administrator and an arbitrary member
renaming a locked thread yield identical corrective traces. -/
theorem C10_witness :
    ("event" : String) = "event" ∧ eventMatch "log:thread-name" ∧
    handleEvent envThree "boss" ⟨[("T", "G")], [], [], [], none⟩
        ⟨"event", "T", "boss", "", "log:thread-name",
          ⟨some "H", none, none, none, none, none, none, none, none, none⟩⟩ =
      handleEvent envThree "boss" ⟨[("T", "G")], [], [], [], none⟩
        ⟨"event", "T", "someoneelse", "", "log:thread-name",
          ⟨some "H", none, none, none, none, none, none, none, none, none⟩⟩ :=
  ⟨rfl, by decide,
    C10_event_branches_actor_independent envThree "boss" "event" "T" ""
      "log:thread-name" "boss" "someoneelse"
      ⟨some "H", none, none, none, none, none, none, none, none, none⟩
      ⟨[("T", "G")], [], [], [], none⟩ rfl (by decide)⟩

/-- C5: with a nickname lock `N` stored for `(tid, uid)`, a nickname-change
occurrence reporting new nick `M ≠ N` triggers exactly one corrective
`changeNickname` call with value `N` (one raw attempt when the call
succeeds) followed by the notify reply; a change occurrence for a member
with no lock, or one reporting `M = N`, triggers nothing. -/
theorem C5_nick_lock_revert_exactly_once (env : Env)
    (bossUID sender body tid uid M N : String) (st : Locks)
    (m : List (String × String)) (hu : uid ≠ "")
    (hm : alookup st.nicknames tid = some m) :
    (alookup m uid = some N → N ≠ "" → M ≠ N → env.nickFail uid 0 = false →
      handleEvent env bossUID st (nickChangeEv tid uid M sender body) =
        ([Op.changeNickname N tid uid,
          Op.sendMessage ("Nick reverted for " ++ uid) (some tid)], st)) ∧
    (alookup m uid = none →
      handleEvent env bossUID st (nickChangeEv tid uid M sender body) =
        ([], st)) ∧
    (alookup m uid = some N → M = N →
      handleEvent env bossUID st (nickChangeEv tid uid M sender body) =
        ([], st)) := by
  have hstep : ∀ ops, handleEventBranch env st tid "log:user-nickname"
      (nickChangeEv tid uid M sender body).logMessageData = ops →
      handleEvent env bossUID st (nickChangeEv tid uid M sender body) =
        (ops, st) := by
    intro ops hops
    unfold handleEvent
    rw [if_pos ⟨rfl, Or.inr (Or.inl (Or.inl rfl))⟩]
    rw [show (nickChangeEv tid uid M sender body).threadID = tid from rfl,
      show (nickChangeEv tid uid M sender body).logMessageType =
        "log:user-nickname" from rfl, hops]
  refine ⟨?_, ?_, ?_⟩
  · intro ha hN hMN hf
    have hNM : N ≠ M := fun h => hMN h.symm
    refine hstep _ ?_
    unfold handleEventBranch
    simp [nickChangeEv, hm, ha, jsOrS, truthyS, hu, hN, hNM,
      revertSingleNick, retryChangeNick_firstSuccess tid uid N
        (env.nickFail uid) hf]
  · intro ha
    refine hstep _ ?_
    unfold handleEventBranch
    simp [nickChangeEv, hm, ha, jsOrS, truthyS, hu]
  · intro ha hMN
    subst hMN
    refine hstep _ ?_
    unfold handleEventBranch
    simp [nickChangeEv, hm, ha, jsOrS, truthyS, hu]

/-- Witness for C5: a concrete locked member changed away from the lock. -/
theorem C5_witness :
    handleEvent envThree "boss" ⟨[], [("T", [("u1", "bob")])], [], [], none⟩
        (nickChangeEv "T" "u1" "eve" "x" "") =
      ([Op.changeNickname "bob" "T" "u1",
        Op.sendMessage ("Nick reverted for " ++ "u1") (some "T")],
       ⟨[], [("T", [("u1", "bob")])], [], [], none⟩) :=
  (C5_nick_lock_revert_exactly_once envThree "boss" "x" "" "T" "u1" "eve"
      "bob" ⟨[], [("T", [("u1", "bob")])], [], [], none⟩ [("u1", "bob")]
      (by decide) (by decide)).1 (by decide) (by decide) (by decide) rfl

/-- C6: with anti-out enabled for the thread, a member-removed occurrence
whose extracted leaving member `uid` differs from the engine's own identity
issues exactly one `addUserToGroup uid tid` call and leaves the store
unchanged; with the flag disabled, with `uid` equal to the engine's own
identity, or with no extractable leaving member id, no add call is made. -/
theorem C6_antiout_readd (env : Env) (bossUID sender body tid uid : String)
    (st : Locks) (hu : uid ≠ "") :
    ((alookup st.antiOut tid).getD false = true → uid ≠ env.selfID →
      ((handleEvent env bossUID st (removeEv tid uid sender body)).1.filter
          isAddOp = [Op.addUserToGroup uid tid]) ∧
        (handleEvent env bossUID st (removeEv tid uid sender body)).2 = st) ∧
    ((alookup st.antiOut tid).getD false = false →
      handleEvent env bossUID st (removeEv tid uid sender body) = ([], st)) ∧
    (uid = env.selfID →
      handleEvent env bossUID st (removeEv tid uid sender body) = ([], st)) ∧
    (handleEvent env bossUID st (removeEvNoPayload tid sender body) =
      ([], st)) := by
  have hrm : removeMatch "log:unsubscribe" := Or.inl rfl
  have hstep : ∀ ev : FbEvent, ev.type = "event" →
      ev.logMessageType = "log:unsubscribe" →
      handleEvent env bossUID st ev =
        (handleEventBranch env st ev.threadID ev.logMessageType
          ev.logMessageData, st) := by
    intro ev h1 h2
    unfold handleEvent
    rw [if_pos ⟨h1, by rw [h2]; exact Or.inr (Or.inr (Or.inr hrm))⟩]
  refine ⟨?_, ?_, ?_, ?_⟩
  · intro hanti hself
    rw [hstep (removeEv tid uid sender body) rfl rfl]
    unfold handleEventBranch
    simp only [removeEv]
    simp [hrm, jsChain, truthyS, hu, hanti, hself]
    by_cases haf : env.addFail uid tid <;> simp [haf, isAddOp]
  · intro hanti
    rw [hstep (removeEv tid uid sender body) rfl rfl]
    unfold handleEventBranch
    simp only [removeEv]
    simp [hrm, jsChain, truthyS, hu, hanti]
  · intro hself
    rw [hstep (removeEv tid uid sender body) rfl rfl]
    unfold handleEventBranch
    simp only [removeEv]
    simp [hrm, jsChain, truthyS, hu, ← hself]
  · rw [hstep (removeEvNoPayload tid sender body) rfl rfl]
    unfold handleEventBranch
    simp only [removeEvNoPayload, LogData.empty]
    simp [hrm, jsChain, truthyS]

/-- Witness for C6: a concrete leaving member re-added under anti-out. -/
theorem C6_witness :
    ((handleEvent envThree "boss" ⟨[], [], [], [("T", true)], none⟩
        (removeEv "T" "victim" "x" "")).1.filter isAddOp =
      [Op.addUserToGroup "victim" "T"]) ∧
    (handleEvent envThree "boss" ⟨[], [], [], [("T", true)], none⟩
        (removeEv "T" "victim" "x" "")).2 =
      ⟨[], [], [], [("T", true)], none⟩ :=
  (C6_antiout_readd envThree "boss" "x" "" "T" "victim"
      ⟨[], [], [], [("T", true)], none⟩ (by decide)).1 (by decide) (by decide)

/-- C2 counterexample: with every external call failing, a rename
occurrence on a title-locked thread produces exactly one raw `setTitle`
attempt — the reactive title revert is not wrapped in the 3-attempt retry
policy the claim asserts for every corrective call. -/
theorem C2_counterexample :
    ((handleEvent envAllFail "boss" ⟨[("T", "G")], [], [], [], none⟩
        (renameEv "T" "H" "x" "")).1.filter isSetTitleOp).length = 1 ∧
    ¬ (((handleEvent envAllFail "boss" ⟨[("T", "G")], [], [], [], none⟩
        (renameEv "T" "H" "x" "")).1.filter isSetTitleOp).length = 3) := by
  constructor <;> decide

/-- C2 as amended: only corrective nickname calls are wrapped in the
retry policy (up to 3 attempts, delay `250 + 150·i` after failed attempt
`i`, never raising, never aborting the surrounding processing — the notify
reply is still sent after total failure); corrective title, icon, and
anti-out add-member calls are issued as a single attempt inside an error
guard that logs failures and also never raises or aborts. -/
theorem C2_amended_retry_only_for_nicknames (env : Env)
    (bossUID sender body tid uid : String) (st : Locks) :
    (∀ m N M, alookup st.nicknames tid = some m → alookup m uid = some N →
      uid ≠ "" → N ≠ "" → M ≠ N → (∀ i, env.nickFail uid i = true) →
      handleEvent env bossUID st (nickChangeEv tid uid M sender body) =
        ([Op.changeNickname N tid uid, Op.sleep 250,
          Op.changeNickname N tid uid, Op.sleep 400,
          Op.changeNickname N tid uid, Op.sleep 550,
          Op.sendMessage ("Nick reverted for " ++ uid) (some tid)], st)) ∧
    (∀ G H, alookup st.groupNames tid = some G → G ≠ "" → H ≠ G →
      handleEvent env bossUID st (renameEv tid H sender body) =
        ([Op.setTitle G tid], st)) ∧
    (∀ E F, alookup st.emojis tid = some E → E ≠ "" → F ≠ E →
      handleEvent env bossUID st (iconEv tid F sender body) =
        ([Op.changeThreadEmoji E tid], st)) ∧
    ((alookup st.antiOut tid).getD false = true → uid ≠ env.selfID →
      uid ≠ "" → env.addFail uid tid = true →
      handleEvent env bossUID st (removeEv tid uid sender body) =
        ([Op.addUserToGroup uid tid,
          Op.sendMessage ("AntiOut failed to re-add " ++ uid) (some tid)],
         st)) := by
  refine ⟨?_, ?_, ?_, ?_⟩
  · intro m N M hm ha hu hN hMN hf
    have hNM : N ≠ M := fun h => hMN h.symm
    unfold handleEvent
    rw [if_pos ⟨rfl, Or.inr (Or.inl (Or.inl rfl))⟩]
    unfold handleEventBranch
    simp [nickChangeEv, hm, ha, jsOrS, truthyS, hu, hN, hNM,
      revertSingleNick,
      retryChangeNick_allFail tid uid N (env.nickFail uid) hf]
  · intro G H hg hG hHG
    unfold handleEvent
    rw [if_pos ⟨rfl, Or.inl rfl⟩]
    unfold handleEventBranch
    simp [renameEv, hg, truthyS, hG, hHG]
  · intro E F he hE hFE
    have hcur : (jsChain [some F, none]).getD "" = F := by
      by_cases hF : F = "" <;> simp [jsChain, truthyS, hF]
    unfold handleEvent
    rw [if_pos ⟨rfl, Or.inr (Or.inr (Or.inl (Or.inl rfl)))⟩]
    unfold handleEventBranch
    have hEF : E ≠ F := fun h => hFE h.symm
    simp only [iconEv]
    simp [hcur, he, truthyS, hE, hEF]
  · intro hanti hself hu haf
    unfold handleEvent
    rw [if_pos ⟨rfl, Or.inr (Or.inr (Or.inr (Or.inl rfl)))⟩]
    unfold handleEventBranch
    simp only [removeEv]
    simp [Or.inl rfl, jsChain, truthyS, hu, hanti, hself, haf,
      show removeMatch "log:unsubscribe" from Or.inl rfl]

/-- Witness for the amended C2 at concrete inputs: an all-failing
environment, a thread with a nickname, title, emoji and anti-out lock. -/
theorem C2_amended_witness :
    (handleEvent envAllFail "boss"
        ⟨[("T", "G")], [("T", [("u1", "bob")])], [("T", "E")],
          [("T", true)], none⟩ (nickChangeEv "T" "u1" "eve" "x" "") =
      ([Op.changeNickname "bob" "T" "u1", Op.sleep 250,
        Op.changeNickname "bob" "T" "u1", Op.sleep 400,
        Op.changeNickname "bob" "T" "u1", Op.sleep 550,
        Op.sendMessage ("Nick reverted for " ++ "u1") (some "T")],
       ⟨[("T", "G")], [("T", [("u1", "bob")])], [("T", "E")],
         [("T", true)], none⟩)) ∧
    (handleEvent envAllFail "boss"
        ⟨[("T", "G")], [("T", [("u1", "bob")])], [("T", "E")],
          [("T", true)], none⟩ (renameEv "T" "H" "x" "") =
      ([Op.setTitle "G" "T"],
       ⟨[("T", "G")], [("T", [("u1", "bob")])], [("T", "E")],
         [("T", true)], none⟩)) ∧
    (handleEvent envAllFail "boss"
        ⟨[("T", "G")], [("T", [("u1", "bob")])], [("T", "E")],
          [("T", true)], none⟩ (iconEv "T" "F" "x" "") =
      ([Op.changeThreadEmoji "E" "T"],
       ⟨[("T", "G")], [("T", [("u1", "bob")])], [("T", "E")],
         [("T", true)], none⟩)) ∧
    (handleEvent envAllFail "boss"
        ⟨[("T", "G")], [("T", [("u1", "bob")])], [("T", "E")],
          [("T", true)], none⟩ (removeEv "T" "u1" "x" "") =
      ([Op.addUserToGroup "u1" "T",
        Op.sendMessage ("AntiOut failed to re-add " ++ "u1") (some "T")],
       ⟨[("T", "G")], [("T", [("u1", "bob")])], [("T", "E")],
         [("T", true)], none⟩)) :=
  ⟨(C2_amended_retry_only_for_nicknames envAllFail "boss" "x" "" "T" "u1"
      ⟨[("T", "G")], [("T", [("u1", "bob")])], [("T", "E")],
        [("T", true)], none⟩).1 [("u1", "bob")] "bob" "eve" (by decide)
      (by decide) (by decide) (by decide) (by decide) (fun i => rfl),
   (C2_amended_retry_only_for_nicknames envAllFail "boss" "x" "" "T" "u1"
      ⟨[("T", "G")], [("T", [("u1", "bob")])], [("T", "E")],
        [("T", true)], none⟩).2.1 "G" "H" (by decide) (by decide)
      (by decide),
   (C2_amended_retry_only_for_nicknames envAllFail "boss" "x" "" "T" "u1"
      ⟨[("T", "G")], [("T", [("u1", "bob")])], [("T", "E")],
        [("T", true)], none⟩).2.2.1 "E" "F" (by decide) (by decide)
      (by decide),
   (C2_amended_retry_only_for_nicknames envAllFail "boss" "x" "" "T" "u1"
      ⟨[("T", "G")], [("T", [("u1", "bob")])], [("T", "E")],
        [("T", true)], none⟩).2.2.2 (by decide) (by decide) (by decide)
      rfl⟩

/-! ### Save-after-mutation lemmas, one per command branch -/

theorem saveLocks_cmdGroupname (st : Locks) (tid : String)
    (args : List String) (h : (cmdGroupname st tid args).2 ≠ st) :
    Op.saveLocks ∈ (cmdGroupname st tid args).1 := by
  revert h
  dsimp only [cmdGroupname]
  by_cases hOn : lowerStr (args.headD "") = "on"
  · rw [if_pos hOn]
    by_cases hname : joinArgs args.tail = ""
    · rw [if_pos hname]; intro h; exact absurd rfl h
    · rw [if_neg hname]; intro _; simp
  · rw [if_neg hOn]
    by_cases hOff : lowerStr (args.headD "") = "off"
    · rw [if_pos hOff]; intro _; simp
    · rw [if_neg hOff]; intro h; exact absurd rfl h

theorem saveLocks_cmdNicknames (env : Env) (st : Locks) (tid : String)
    (args : List String) (hti : (env.threadInfo tid).isSome)
    (h : (cmdNicknames env st tid args).2 ≠ st) :
    Op.saveLocks ∈ (cmdNicknames env st tid args).1 := by
  revert h
  dsimp only [cmdNicknames]
  by_cases hOn : lowerStr (args.headD "") = "on"
  · rw [if_pos hOn]
    by_cases hname : joinArgs args.tail = ""
    · rw [if_pos hname]; intro h; exact absurd rfl h
    · rw [if_neg hname]
      obtain ⟨info, hinfo⟩ := Option.isSome_iff_exists.mp hti
      intro _
      simp [cmdNicknamesOn, hinfo]
  · rw [if_neg hOn]
    by_cases hOff : lowerStr (args.headD "") = "off"
    · rw [if_pos hOff]
      cases hex : alookup st.nicknames tid with
      | some m => intro _; simp
      | none => intro h; exact absurd rfl h
    · rw [if_neg hOff]; intro h; exact absurd rfl h

theorem saveLocks_cmdNickname (env : Env) (st : Locks) (tid : String)
    (args : List String) (h : (cmdNickname env st tid args).2 ≠ st) :
    Op.saveLocks ∈ (cmdNickname env st tid args).1 := by
  revert h
  dsimp only [cmdNickname]
  by_cases hOn : lowerStr (args.headD "") = "on"
  · rw [if_pos hOn]
    by_cases hc : args.getD 1 "" = "" ∨ joinArgs (args.drop 2) = ""
    · rw [if_pos hc]; intro h; exact absurd rfl h
    · rw [if_neg hc]; intro _; simp
  · rw [if_neg hOn]
    by_cases hOff : lowerStr (args.headD "") = "off"
    · rw [if_pos hOff]
      by_cases ht0 : args.getD 1 "" = ""
      · rw [if_pos ht0]; intro h; exact absurd rfl h
      · rw [if_neg ht0]
        cases hex : alookup st.nicknames tid with
        | some m =>
          dsimp only
          by_cases htr : truthyS (alookup m (args.getD 1 ""))
          · rw [if_pos htr]; intro _; simp
          · rw [if_neg htr]; intro h; exact absurd rfl h
        | none => intro h; exact absurd rfl h
    · rw [if_neg hOff]; intro h; exact absurd rfl h

theorem saveLocks_cmdEmoji (st : Locks) (tid : String) (args : List String)
    (h : (cmdEmoji st tid args).2 ≠ st) :
    Op.saveLocks ∈ (cmdEmoji st tid args).1 := by
  revert h
  dsimp only [cmdEmoji]
  by_cases he : args.getD 0 "" = ""
  · rw [if_pos he]; intro h; exact absurd rfl h
  · rw [if_neg he]; intro _; simp

theorem saveLocks_cmdAntiout (st : Locks) (tid : String)
    (args : List String) (h : (cmdAntiout st tid args).2 ≠ st) :
    Op.saveLocks ∈ (cmdAntiout st tid args).1 := by
  revert h
  dsimp only [cmdAntiout]
  by_cases hOn : lowerStr (args.headD "") = "on"
  · rw [if_pos hOn]; intro _; simp
  · rw [if_neg hOn]
    by_cases hOff : lowerStr (args.headD "") = "off"
    · rw [if_pos hOff]; intro _; simp
    · rw [if_neg hOff]; intro h; exact absurd rfl h

theorem saveLocks_cmdTarget (st : Locks) (tid : String)
    (args : List String) (h : (cmdTarget st tid args).2 ≠ st) :
    Op.saveLocks ∈ (cmdTarget st tid args).1 := by
  revert h
  dsimp only [cmdTarget]
  by_cases hOn : lowerStr (args.headD "") = "on"
  · rw [if_pos hOn]
    by_cases ht0 : args.getD 1 "" = ""
    · rw [if_pos ht0]; intro h; exact absurd rfl h
    · rw [if_neg ht0]; intro _; simp
  · rw [if_neg hOn]
    by_cases hOff : lowerStr (args.headD "") = "off"
    · rw [if_pos hOff]
      cases hex : st.target with
      | some m => intro _; simp
      | none => intro h; exact absurd rfl h
    · rw [if_neg hOff]; intro h; exact absurd rfl h

theorem cmdAdduser_snd (env : Env) (st : Locks) (tid : String)
    (args : List String) : (cmdAdduser env st tid args).2 = st := by
  dsimp only [cmdAdduser]
  by_cases h0 : args.getD 0 "" = ""
  · rw [if_pos h0]
  · rw [if_neg h0]
    by_cases haf : env.addFail (args.getD 0 "") tid = true
    · rw [if_pos haf]
    · rw [if_neg haf]

theorem cmdGroupinfo_snd (env : Env) (st : Locks) (tid : String) :
    (cmdGroupinfo env st tid).2 = st := by
  dsimp only [cmdGroupinfo]
  cases hinfo : env.threadInfo tid with
  | some info => rfl
  | none => rfl

theorem saveLocks_handleCommand (env : Env) (st : Locks)
    (tid body : String) (hti : (env.threadInfo tid).isSome)
    (h : (handleCommand env st tid body).2 ≠ st) :
    Op.saveLocks ∈ (handleCommand env st tid body).1 := by
  revert h
  dsimp only [handleCommand]
  by_cases h1 : lowerStr (stripSlash ((tokens body).headD "")) = "groupname"
  · rw [if_pos h1]
    exact saveLocks_cmdGroupname st tid (tokens body).tail
  · rw [if_neg h1]
    by_cases h2 : lowerStr (stripSlash ((tokens body).headD "")) =
      "nicknames"
    · rw [if_pos h2]
      exact saveLocks_cmdNicknames env st tid (tokens body).tail hti
    · rw [if_neg h2]
      by_cases h3 : lowerStr (stripSlash ((tokens body).headD "")) =
        "nickname"
      · rw [if_pos h3]
        exact saveLocks_cmdNickname env st tid (tokens body).tail
      · rw [if_neg h3]
        by_cases h4 : lowerStr (stripSlash ((tokens body).headD "")) =
          "emoji"
        · rw [if_pos h4]
          exact saveLocks_cmdEmoji st tid (tokens body).tail
        · rw [if_neg h4]
          by_cases h5 : lowerStr (stripSlash ((tokens body).headD "")) =
            "antiout"
          · rw [if_pos h5]
            exact saveLocks_cmdAntiout st tid (tokens body).tail
          · rw [if_neg h5]
            by_cases h6 : lowerStr (stripSlash ((tokens body).headD "")) =
              "adduser"
            · rw [if_pos h6]
              intro h
              exact absurd (cmdAdduser_snd env st tid (tokens body).tail) h
            · rw [if_neg h6]
              by_cases h7 : lowerStr (stripSlash ((tokens body).headD "")) =
                "uid"
              · rw [if_pos h7]; intro h; exact absurd rfl h
              · rw [if_neg h7]
                by_cases h8 : lowerStr
                    (stripSlash ((tokens body).headD "")) = "groupinfo"
                · rw [if_pos h8]
                  intro h
                  exact absurd (cmdGroupinfo_snd env st tid) h
                · rw [if_neg h8]
                  by_cases h9 : lowerStr
                      (stripSlash ((tokens body).headD "")) = "target"
                  · rw [if_pos h9]
                    exact saveLocks_cmdTarget st tid (tokens body).tail
                  · rw [if_neg h9]
                    by_cases h10 : lowerStr
                        (stripSlash ((tokens body).headD "")) = "help"
                    · rw [if_pos h10]; intro h; exact absurd rfl h
                    · rw [if_neg h10]; intro h; exact absurd rfl h

/-- C8 counterexample: with the member fetch throwing, the privileged
command `nicknames on bob` mutates the Policy Store (it lazily creates the
thread's empty nicknames record, which `groupinfo` reports as an active
nickname lock) yet the handler completes without any `saveLocks` call. -/
theorem C8_counterexample :
    (handleEvent envNone "boss" defaultLocks
        ⟨"message", "T", "boss", "/nicknames on bob", "",
          LogData.empty⟩).2 ≠ defaultLocks ∧
    Op.saveLocks ∉ (handleEvent envNone "boss" defaultLocks
        ⟨"message", "T", "boss", "/nicknames on bob", "",
          LogData.empty⟩).1 := by
  constructor <;> decide

/-- C8 as amended: whenever the thread-info fetch succeeds, every handler
pass that changes the Policy Store also performs a `saveLocks` before
completing; the lazily created empty nicknames record of `nicknames on` is
unsaved only when the subsequent member fetch throws (left to the periodic
60-second safety-net save, whose interval is also fixed here). -/
theorem C8_amended_save_follows_mutation :
    saveIntervalMs = 60 * 1000 ∧
    ∀ (env : Env) (bossUID : String) (st : Locks) (ev : FbEvent),
      (∀ t, (env.threadInfo t).isSome) →
      (handleEvent env bossUID st ev).2 ≠ st →
      Op.saveLocks ∈ (handleEvent env bossUID st ev).1 := by
  refine ⟨rfl, ?_⟩
  intro env bossUID st ev hti h
  revert h
  unfold handleEvent
  by_cases hev : ev.type = "event" ∧ eventMatch ev.logMessageType
  · rw [if_pos hev]; intro h; exact absurd rfl h
  · rw [if_neg hev]
    by_cases hb : ev.body = ""
    · rw [if_pos hb]; intro h; exact absurd rfl h
    · rw [if_neg hb]
      by_cases hs : ev.senderID ≠ bossUID
      · rw [if_pos hs]; intro h; exact absurd rfl h
      · rw [if_neg hs]
        exact saveLocks_handleCommand env st ev.threadID ev.body
          (hti ev.threadID)

/-- Witness for the amended C8: a mutating privileged command under a
succeeding fetch is followed by a save. -/
theorem C8_amended_witness :
    (handleEvent envThree "boss" defaultLocks
        ⟨"message", "T", "boss", "/groupname on X", "",
          LogData.empty⟩).2 ≠ defaultLocks ∧
    Op.saveLocks ∈ (handleEvent envThree "boss" defaultLocks
        ⟨"message", "T", "boss", "/groupname on X", "",
          LogData.empty⟩).1 :=
  ⟨by decide,
   C8_amended_save_follows_mutation.2 envThree "boss" defaultLocks
     ⟨"message", "T", "boss", "/groupname on X", "", LogData.empty⟩
     (fun _ => rfl) (by decide)⟩

/-! ### Batch-structure lemmas for bulk enforcement -/

theorem enforceAux_eq_batches (env : Env) (tid n : String) :
    ∀ (fuel : Nat) (uids : List String),
      enforceAux env tid n fuel uids =
        ((chunksAux 15 fuel uids).map
          (fun b => (b.map (fun u =>
            (retryChangeNick tid u n (env.nickFail u) 3).1)).flatten ++
            [Op.sleep 350])).flatten := by
  intro fuel
  induction fuel with
  | zero => intro uids; simp [enforceAux, chunksAux]
  | succ fuel ih =>
    intro uids
    cases uids with
    | nil => simp [enforceAux, chunksAux]
    | cons c cs =>
      simp only [enforceAux, chunksAux, List.map_cons, List.flatten_cons,
        ih]

theorem chunksAux_length15 {α : Type} :
    ∀ (fuel : Nat) (xs : List α), xs.length ≤ fuel →
      (chunksAux 15 fuel xs).length = (xs.length + 14) / 15 := by
  intro fuel
  induction fuel with
  | zero =>
    intro xs h
    have hx : xs = [] := List.length_eq_zero.mp (Nat.le_zero.mp h)
    subst hx
    simp [chunksAux]
  | succ fuel ih =>
    intro xs h
    cases xs with
    | nil => simp [chunksAux]
    | cons c cs =>
      have hlen : ((c :: cs).drop 15).length ≤ fuel := by
        simp [List.length_drop] at h ⊢
        omega
      simp only [chunksAux, List.length_cons, ih _ hlen, List.length_drop]
      simp only [List.length_cons] at h
      omega

theorem chunksAux_sizes15 {α : Type} :
    ∀ (fuel : Nat) (xs : List α) (b : List α),
      b ∈ chunksAux 15 fuel xs → b.length ≤ 15 := by
  intro fuel
  induction fuel with
  | zero => intro xs b hb; simp [chunksAux] at hb
  | succ fuel ih =>
    intro xs b hb
    cases xs with
    | nil => simp [chunksAux] at hb
    | cons c cs =>
      simp only [chunksAux, List.mem_cons] at hb
      rcases hb with hb | hb
      · subst hb
        exact List.length_take_le 15 (c :: cs)
      · exact ih _ _ hb

theorem chunksAux_flatten15 {α : Type} :
    ∀ (fuel : Nat) (xs : List α), xs.length ≤ fuel →
      (chunksAux 15 fuel xs).flatten = xs := by
  intro fuel
  induction fuel with
  | zero =>
    intro xs h
    have hx : xs = [] := List.length_eq_zero.mp (Nat.le_zero.mp h)
    subst hx
    simp [chunksAux]
  | succ fuel ih =>
    intro xs h
    cases xs with
    | nil => simp [chunksAux]
    | cons c cs =>
      have hlen : ((c :: cs).drop 15).length ≤ fuel := by
        simp [List.length_drop] at h ⊢
        omega
      simp only [chunksAux, List.flatten_cons, ih _ hlen]
      exact List.take_append_drop 15 (c :: cs)

theorem enforceAux_success (env : Env) (tid n : String)
    (hsucc : ∀ u i, env.nickFail u i = false) :
    ∀ (fuel : Nat) (uids : List String),
      enforceAux env tid n fuel uids =
        ((chunksAux 15 fuel uids).map
          (fun b => b.map (fun u => Op.changeNickname n tid u) ++
            [Op.sleep 350])).flatten := by
  intro fuel
  induction fuel with
  | zero => intro uids; simp [enforceAux, chunksAux]
  | succ fuel ih =>
    intro uids
    cases uids with
    | nil => simp [enforceAux, chunksAux]
    | cons c cs =>
      have hbatch : ∀ b : List String,
          (b.map (fun u =>
            (retryChangeNick tid u n (env.nickFail u) 3).1)).flatten =
            b.map (fun u => Op.changeNickname n tid u) := by
        intro b
        induction b with
        | nil => simp
        | cons x xs ihx =>
          simp [retryChangeNick_firstSuccess tid x n (env.nickFail x)
            (hsucc x 0), ihx]
      simp only [enforceAux, chunksAux, List.map_cons, List.flatten_cons,
        ih, hbatch]

theorem filter_nick_batches (n tid : String) (cl : List (List String)) :
    ((cl.map (fun b => b.map (fun u => Op.changeNickname n tid u) ++
      [Op.sleep 350])).flatten).filter isNickOp =
      cl.flatten.map (fun u => Op.changeNickname n tid u) := by
  induction cl with
  | nil => simp
  | cons b bs ih =>
    have hb : (b.map (fun u => Op.changeNickname n tid u)).filter isNickOp =
        b.map (fun u => Op.changeNickname n tid u) := by
      induction b with
      | nil => simp
      | cons x xs ihx => simp [isNickOp, ihx]
    simp only [List.map_cons, List.flatten_cons, List.filter_append, hb,
      ih]
    simp [isNickOp, List.map_append]

theorem filter_sleep_batches (n tid : String) (cl : List (List String)) :
    (((cl.map (fun b => b.map (fun u => Op.changeNickname n tid u) ++
      [Op.sleep 350])).flatten).filter isSleep350).length = cl.length := by
  induction cl with
  | nil => simp
  | cons b bs ih =>
    have hb : (b.map (fun u => Op.changeNickname n tid u)).filter
        isSleep350 = [] := by
      induction b with
      | nil => simp
      | cons x xs ihx => simp [isSleep350, ihx]
    simp only [List.map_cons, List.flatten_cons, List.filter_append,
      List.length_append, hb, ih]
    simp [isSleep350]
    omega

theorem filter_wrap (p : Op → Bool) (E L : List Op) (g : Op)
    (hg : p g = false) (hL : L.filter p = []) :
    ((g :: E) ++ L).filter p = E.filter p := by
  simp [List.filter_cons, List.filter_append, hg, hL]

/-- C4: `nicknames on <nick>` over the K members returned by the fetch runs
the corrective nickname calls batched exactly as `chunksList 15` partitions
the member list: `ceil(K/15) = (K+14)/15` batches, each of at most 15
members, jointly covering every fetched member once; each batch's calls are
awaited together and followed by the fixed 350 ms pause (one `sleep 350`
per batch in the trace); with succeeding calls each fetched member receives
exactly one corrective `changeNickname <nick>` call, in member order; and
afterwards the thread's nickname map holds `<nick>` for every fetched
member. -/
theorem C4_bulk_enforcement (env : Env) (st : Locks) (tid : String)
    (info : ThreadInfo) (ms rest : List String) (nickname : String)
    (hinfo : env.threadInfo tid = some info)
    (hms : membersOf info = ms)
    (hnk : joinArgs rest = nickname)
    (hn : nickname ≠ "")
    (hsucc : ∀ u i, env.nickFail u i = false) :
    (enforceAux env tid nickname ms.length ms =
      ((chunksList 15 ms).map
        (fun b => (b.map (fun u =>
          (retryChangeNick tid u nickname (env.nickFail u) 3).1)).flatten ++
          [Op.sleep 350])).flatten) ∧
    ((chunksList 15 ms).length = (ms.length + 14) / 15) ∧
    (∀ b ∈ chunksList 15 ms, b.length ≤ 15) ∧
    ((chunksList 15 ms).flatten = ms) ∧
    (((cmdNicknames env st tid ("on" :: rest)).1.filter isSleep350).length =
      (ms.length + 14) / 15) ∧
    ((cmdNicknames env st tid ("on" :: rest)).1.filter isNickOp =
      ms.map (fun u => Op.changeNickname nickname tid u)) ∧
    (∀ u ∈ ms, alookup
      ((alookup (cmdNicknames env st tid ("on" :: rest)).2.nicknames
        tid).getD []) u = some nickname) := by
  have hon : cmdNicknames env st tid ("on" :: rest) =
      cmdNicknamesOn env st tid nickname := by
    dsimp only [cmdNicknames]
    rw [if_pos (show lowerStr (("on" :: rest).headD "") = "on" from rfl)]
    rw [show ("on" :: rest).tail = rest from rfl, hnk, if_neg hn]
  have htr : (cmdNicknamesOn env st tid nickname).1 =
      (Op.getThreadInfo tid ::
        enforceAux env tid nickname ms.length ms) ++
      [Op.getThreadInfo tid, Op.saveLocks,
       Op.sendMessage ("All nicknames locked -> " ++ nickname)
         (some tid)] := by
    dsimp only [cmdNicknamesOn, enforceNickLockForThread]
    rw [hinfo]
    dsimp only
    rw [hms]
  have hchunks := enforceAux_success env tid nickname hsucc ms.length ms
  refine ⟨enforceAux_eq_batches env tid nickname ms.length ms,
    chunksAux_length15 ms.length ms (Nat.le_refl _),
    fun b hb => chunksAux_sizes15 ms.length ms b hb,
    chunksAux_flatten15 ms.length ms (Nat.le_refl _), ?_, ?_, ?_⟩
  · rw [hon, htr]
    rw [filter_wrap isSleep350
      (enforceAux env tid nickname ms.length ms)
      [Op.getThreadInfo tid, Op.saveLocks,
        Op.sendMessage ("All nicknames locked -> " ++ nickname) (some tid)]
      (Op.getThreadInfo tid) rfl rfl]
    rw [hchunks, filter_sleep_batches]
    exact chunksAux_length15 ms.length ms (Nat.le_refl _)
  · rw [hon, htr]
    rw [filter_wrap isNickOp
      (enforceAux env tid nickname ms.length ms)
      [Op.getThreadInfo tid, Op.saveLocks,
        Op.sendMessage ("All nicknames locked -> " ++ nickname) (some tid)]
      (Op.getThreadInfo tid) rfl rfl]
    rw [hchunks, filter_nick_batches,
      chunksAux_flatten15 ms.length ms (Nat.le_refl _)]
  · intro u hu
    rw [hon]
    dsimp only [cmdNicknamesOn]
    rw [hinfo]
    dsimp only
    rw [hms, alookup_aset]
    simp [alookup_setAllNicks, hu]

/-- Witness for C4 over seventeen concrete members: two batches, two
inter-batch pauses, and a lock entry for every member. -/
theorem C4_witness :
    ((chunksList 15 (membersOf infoSeventeen)).length =
      ((membersOf infoSeventeen).length + 14) / 15) ∧
    (((cmdNicknames envSeventeen defaultLocks "T" ["on", "bob"]).1.filter
        isSleep350).length =
      ((membersOf infoSeventeen).length + 14) / 15) ∧
    (((membersOf infoSeventeen).length + 14) / 15 = 2) ∧
    (∀ u ∈ membersOf infoSeventeen,
      alookup ((alookup (cmdNicknames envSeventeen defaultLocks "T"
          ["on", "bob"]).2.nicknames "T").getD []) u = some "bob") := by
  have h := C4_bulk_enforcement envSeventeen defaultLocks "T"
    infoSeventeen (membersOf infoSeventeen) ["bob"] "bob" rfl rfl rfl
    (by decide) (fun u i => rfl)
  exact ⟨h.2.1, h.2.2.2.2.1, by decide, h.2.2.2.2.2.2⟩

end GClock
